import Mathlib

/-!
Shallow embedding of the cloud-pricing refresh pipeline
(`src/api/providers/route.ts`, `src/storage/kv.ts`, `src/validation/pipeline.ts`,
`src/extraction/llm-extractor.ts`, `src/scraping/universal-scraper.ts`).

Conventions used throughout:
* JavaScript numbers are modelled by `ℚ` (exact rational arithmetic); the
  numeric literals appearing in the code (`0.5`, `0.2`, thresholds, prices
  with at most two decimals) are all exactly representable, so the model and
  the float program agree away from denormal/rounding corner cases none of
  the verified properties depend on.
* Timestamps (`Date.now()`, `new Date(...).getTime()`) are milliseconds as `ℤ`.
* The opaque `data: any` payloads produced by `JSON.parse` are modelled by the
  `Json` tree below; `JSON.stringify` is modelled by `Json.stringify`
  (compact) and `Json.stringify2` (the `JSON.stringify(data, null, 2)` form).
* Asynchronous effects are passed explicitly: fallible external calls are
  `Except String α` oracles, and the Cloudflare KV namespace is an explicit
  `KVState` record threaded through the functions that read/write it.
-/

/-- The JSON value tree for the schema-less extracted documents
(`data: any` in `src/types/index.ts`). -/
inductive Json where
  | null
  | bool (b : Bool)
  | num (q : ℚ)
  | str (s : String)
  | arr (elems : List Json)
  | obj (fields : List (String × Json))
deriving Repr

namespace Json

/-- Decimal digits of `n` (most significant first), as characters. -/
def natDigits (n : ℕ) : List Char :=
  (Nat.toDigits 10 n)

/-- Fractional decimal digits of `num/den` (0 ≤ num < den), produced by long
division with fuel.  JS double values always have a finite decimal expansion;
for the two-decimal price values manipulated by this codebase the expansion
stops well inside the fuel bound. -/
def fracDigits : ℕ → ℕ → ℕ → List Char
  | 0, _, _ => []
  | _, 0, _ => []
  | fuel + 1, nn, dd =>
    let n10 := nn * 10
    (Char.ofNat (n10 / dd + '0'.toNat)) :: fracDigits fuel (n10 % dd) dd

/-- Rendering of a JS number, as produced by `JSON.stringify`: optional sign,
integer part, and a fractional part only when nonzero. -/
def numToString (q : ℚ) : String :=
  let sign := if q < 0 then "-" else ""
  let n := q.num.natAbs
  let d := q.den
  let ip := n / d
  let rem := n % d
  let frac := if rem = 0 then [] else '.' :: fracDigits 20 rem d
  sign ++ String.mk (natDigits ip ++ frac)

/-- String escaping performed by `JSON.stringify`.  The documents manipulated
by this development only contain plain printable keys/values, so only the
escapes that could actually appear are implemented. -/
def escapeChar (c : Char) : List Char :=
  if c = '"' then ['\\', '"']
  else if c = '\\' then ['\\', '\\']
  else if c = '\n' then ['\\', 'n']
  else if c = '\t' then ['\\', 't']
  else if c = '\r' then ['\\', 'r']
  else [c]

/-- A JSON string literal: quoted and escaped. -/
def quoteString (s : String) : String :=
  "\"" ++ String.mk (s.toList.flatMap escapeChar) ++ "\""

mutual
/-- Model of `JSON.stringify(v)` (compact form: no whitespace). -/
def stringify : Json → String
  | .null => "null"
  | .bool b => if b then "true" else "false"
  | .num q => numToString q
  | .str s => quoteString s
  | .arr l => "[" ++ stringifyList l ++ "]"
  | .obj l => "\x7b" ++ stringifyFields l ++ "\x7d"

def stringifyList : List Json → String
  | [] => ""
  | [j] => stringify j
  | j :: rest => stringify j ++ "," ++ stringifyList rest

def stringifyFields : List (String × Json) → String
  | [] => ""
  | [(k, v)] => quoteString k ++ ":" ++ stringify v
  | (k, v) :: rest => quoteString k ++ ":" ++ stringify v ++ "," ++ stringifyFields rest
end

mutual
/-- Model of `JSON.stringify(v, null, 2)`: two-space pretty printing.  `ind` is the
indentation already accumulated for the enclosing value. -/
def stringify2At (ind : String) : Json → String
  | .arr [] => "[]"
  | .arr l => "[\n" ++ stringify2List (ind ++ "  ") l ++ "\n" ++ ind ++ "]"
  | .obj [] => "\x7b\x7d"
  | .obj l => "\x7b\n" ++ stringify2Fields (ind ++ "  ") l ++ "\n" ++ ind ++ "\x7d"
  | j => stringify j

def stringify2List (ind : String) : List Json → String
  | [] => ""
  | [j] => ind ++ stringify2At ind j
  | j :: rest => ind ++ stringify2At ind j ++ ",\n" ++ stringify2List ind rest

def stringify2Fields (ind : String) : List (String × Json) → String
  | [] => ""
  | [(k, v)] => ind ++ quoteString k ++ ": " ++ stringify2At ind v
  | (k, v) :: rest =>
    ind ++ quoteString k ++ ": " ++ stringify2At ind v ++ ",\n" ++ stringify2Fields ind rest
end

/-- Model of `JSON.stringify(v, null, 2)`. -/
def stringify2 (j : Json) : String := stringify2At "" j

end Json

/- `Rat.add`/`mul`/... are `@[irreducible]` in Batteries, which blocks the
`decide`/`rfl` evaluation of the concrete runs below.  Reducibility attributes
are elaborator-side only (the kernel ignores them), so restoring the default
does not affect soundness. -/
set_option allowUnsafeReducibility true in
attribute [semireducible] Rat.add Rat.sub Rat.mul Rat.div Rat.inv Rat.neg Rat.ofScientific

/-- Model of `s.toLowerCase()` (ASCII, which covers every string this code lowercases). -/
def toLowerStr (s : String) : String :=
  String.mk (s.toList.map Char.toLower)

/-- Does `l` start with `p`? -/
def leadsWith : List Char → List Char → Bool
  | [], _ => true
  | _ :: _, [] => false
  | p :: ps, c :: cs => p = c && leadsWith ps cs

/-- Does `l` contain `pat` as a contiguous run? -/
def strIncludesAux (pat : List Char) : List Char → Bool
  | [] => leadsWith pat []
  | l@(_ :: rest) => leadsWith pat l || strIncludesAux pat rest

/-- Model of `s.includes(pat)`. -/
def strIncludes (s pat : String) : Bool :=
  strIncludesAux pat.toList s.toList

/-- JS `\s` on the ASCII range (space, tab, LF, CR, VT, FF). -/
def jsWhitespace (c : Char) : Bool :=
  c = ' ' || c = '\t' || c = '\n' || c = '\r' || c = Char.ofNat 11 || c = Char.ofNat 12

/-- Model of `s.split('\n')` (all segments kept, including empty ones). -/
def splitLinesAux (cur : List Char) : List Char → List String
  | [] => [String.mk cur.reverse]
  | c :: rest =>
    if c = '\n' then String.mk cur.reverse :: splitLinesAux [] rest
    else splitLinesAux (c :: cur) rest

/-- Model of `s.split('\n')`. -/
def splitLines (s : String) : List String := splitLinesAux [] s.toList

/-- Model of `s.trim()`: strip leading and trailing whitespace. -/
def jsTrim (s : String) : String :=
  String.mk (((s.toList.dropWhile jsWhitespace).reverse.dropWhile jsWhitespace).reverse)

/-- The hard errors pushed by the validation pipeline, one constructor per
`errors.push` site in `src/validation/pipeline.ts`. -/
inductive VErr where
  /-- Message "Data is empty or not an object" -/
  | dataEmpty
  /-- Message "Data appears to be too small to contain pricing information" -/
  | dataTooSmall
  /-- Message "Data does not contain expected pricing-related fields" -/
  | missingExpectedFields
  /-- Message "Confidence too low: ...%" -/
  | confidenceTooLow (finalConfidence : ℚ)
deriving Repr, DecidableEq

/-- The soft warnings pushed by the validation pipeline, one constructor per
`warnings.push` site in `src/validation/pipeline.ts`. -/
inductive VWarning where
  /-- Message "Vercel data missing expected plan structure" -/
  | vercelMissingPlans
  /-- Message "Vercel data missing expected limit types" -/
  | vercelMissingLimits
  /-- Message "Netlify data missing expected plan structure" -/
  | netlifyMissingPlans
  /-- Message "Netlify data missing expected feature types" -/
  | netlifyMissingFeatures
  /-- Message "Data size changed by ...% from last extraction" -/
  | dataSizeChanged (sizeChange : ℚ)
  /-- Message "Detected ...% price change: $old → $new" -/
  | priceChange (oldPrice newPrice : ℚ)
  /-- Message "Invalid negative price found: $..." -/
  | negativePrice (price : ℚ)
  /-- Message "Unusually high price found: $..." -/
  | highPrice (price : ℚ)
  /-- Message "Duplicate price value found: ..." -/
  | duplicateValue (value : String)
deriving Repr, DecidableEq

/-- Model of `ValidationResult` from `src/types/index.ts` (`data: valid ? data :
undefined`, error/warning lists; the source leaves empty lists `undefined`,
modelled as the empty list). -/
structure ValidationResult where
  valid : Bool
  confidence : ℚ
  data : Option Json
  errors : List VErr
  warnings : List VWarning
deriving Repr

/-- Model of `Source.type` from `src/types/index.ts`. -/
inductive SourceType where
  | pricing | limits | fairUse | docs
deriving Repr, DecidableEq

/-- Model of `Source` from `src/types/index.ts`; timestamps are epoch milliseconds. -/
structure Source where
  url : String
  type : SourceType
  scrapedAt : ℤ
deriving Repr, DecidableEq

/-- Model of `Metadata` from `src/types/index.ts`. -/
structure Metadata where
  confidence : ℚ
  extractionModel : String
  processingTime : ℤ
  schemaVersion : String
deriving Repr

/-- Model of `PricingData` from `src/types/index.ts`: the durable snapshot unit. -/
structure PricingData where
  provider : String
  scrapedAt : ℤ
  sources : List Source
  data : Json
  metadata : Metadata
deriving Repr

/-- Model of `PageData` from `src/types/index.ts`: one URL's acquisition result. -/
structure PageData where
  url : String
  html : String
  text : String
  screenshot : Option String := none
  title : String
  scrapedAt : ℤ
  error : Option String := none
deriving Repr, DecidableEq

/-- Model of `ScrapingResult` from `src/types/index.ts`. -/
structure ScrapingResult where
  success : Bool
  provider : String
  pages : List PageData
  error : Option String := none
  duration : ℤ
deriving Repr

/-- Model of `ExtractionResult` from `src/types/index.ts`. -/
structure ExtractionResult where
  data : Json
  confidence : ℚ
  model : String
  tokensUsed : ℕ
deriving Repr

namespace ValidationPipeline

/-!
Model of `ValidationPipeline` from `src/validation/pipeline.ts`.  The single KV read it
performs (`kvStore.getCurrentPricing(provider)` inside
`validateStatistically`) is passed in as the explicit `historical` argument.
The price heuristics scan the `JSON.stringify` serialization with four regex
patterns; each pattern is embedded as a match-at-position function plus the
standard `matchAll` scan (leftmost match, resume after the matched run).
-/

/-- Model of `hasAnyProperty(obj, properties)`: the serialized object, lowercased,
contains some keyword (lowercased). -/
def hasAnyProperty (obj : Json) (properties : List String) : Bool :=
  properties.any fun prop => strIncludes (toLowerStr (Json.stringify obj)) (toLowerStr prop)

/-- One attempted match of `/"\$?(\d+(?:\.\d{2})?)"/` at the head of `l`:
a quote, an optional dollar sign, digits with an optional two-decimal tail,
and a closing quote.  Returns the capture and the characters after the whole
match.  The greedy `\d+` only has to be tried at its maximal run: any shorter
split leaves the next character a digit, which satisfies neither `\.` nor
`"`. -/
def p1At (l : List Char) : Option (List Char × List Char) :=
  match l with
  | '"' :: r1 =>
    let r2 := match r1 with
      | '$' :: t => t
      | _ => r1
    let ds := r2.takeWhile Char.isDigit
    let r3 := r2.dropWhile Char.isDigit
    if ds.isEmpty then none
    else
      match r3 with
      | '.' :: a :: b :: '"' :: r4 =>
        if a.isDigit && b.isDigit then some (ds ++ '.' :: a :: [b], r4)
        else none
      | '"' :: r4 => some (ds, r4)
      | _ => none
  | _ => none

/-- One attempted match of `/:\s*(\d+(?:\.\d{2})?)[,}]/` at the head of `l`.
The terminating `,` or `}` belongs to the match, so scanning resumes after
it.  `\s*` only has to be tried at its maximal run (shorter runs leave a
whitespace character where `\d` is required), and `\d+` at its maximal run as
in `p1At`. -/
def p2At (l : List Char) : Option (List Char × List Char) :=
  match l with
  | ':' :: r1 =>
    let r2 := r1.dropWhile jsWhitespace
    let ds := r2.takeWhile Char.isDigit
    let r3 := r2.dropWhile Char.isDigit
    if ds.isEmpty then none
    else
      match r3 with
      | '.' :: a :: b :: t :: r4 =>
        if a.isDigit && b.isDigit && (t = ',' || t = '}') then
          some (ds ++ '.' :: a :: [b], r4)
        else none
      | t :: r4 => if t = ',' || t = '}' then some (ds, r4) else none
      | [] => none
  | _ => none

/-- Case-insensitive literal strip: consumes `kw` (case-insensitively) from
the front of `l`. -/
def stripCI : List Char → List Char → Option (List Char)
  | [], l => some l
  | _ :: _, [] => none
  | k :: ks, c :: cs => if Char.toLower c = Char.toLower k then stripCI ks cs else none

/-- One attempted match of `/"price":\s*(\d+(?:\.\d{2})?)/i` (and the same
with `"cost"`) at the head of `l`: the quoted key and colon
(case-insensitive), optional whitespace, digits with an optional greedy
two-decimal tail, and no trailing requirement. -/
def pKeyAt (kw : List Char) (l : List Char) : Option (List Char × List Char) :=
  match stripCI kw l with
  | none => none
  | some r1 =>
    let r2 := r1.dropWhile jsWhitespace
    let ds := r2.takeWhile Char.isDigit
    let r3 := r2.dropWhile Char.isDigit
    if ds.isEmpty then none
    else
      match r3 with
      | '.' :: a :: b :: r4 =>
        if a.isDigit && b.isDigit then some (ds ++ '.' :: a :: [b], r4) else some (ds, r3)
      | _ => some (ds, r3)

/-- Model of `jsonStr.matchAll(pattern)`: successive leftmost matches, resuming after
each matched run.  Fuel-structured so the kernel can evaluate it; fuel
`l.length` suffices because every step consumes at least one character
(either one skipped character or a nonempty match). -/
def scanWith (pat : List Char → Option (List Char × List Char)) :
    ℕ → List Char → List (List Char)
  | 0, _ => []
  | _ + 1, [] => []
  | fuel + 1, l@(_ :: rest) =>
    match pat l with
    | some (cap, r) => cap :: scanWith pat fuel r
    | none => scanWith pat fuel rest

/-- Model of `parseFloat` on a capture of the price patterns (digits with an optional
two-decimal tail), which is always a valid number (the `isNaN` test in the
source never fires). -/
def parseCap (cap : List Char) : ℚ :=
  let ip := cap.takeWhile Char.isDigit
  let rest := cap.dropWhile Char.isDigit
  let ipv : ℕ := ip.foldl (fun acc c => 10 * acc + (c.toNat - '0'.toNat)) 0
  match rest with
  | '.' :: a :: [b] => (ipv : ℚ) + ((10 * (a.toNat - '0'.toNat) + (b.toNat - '0'.toNat) : ℕ) : ℚ) / 100
  | _ => (ipv : ℚ)

/-- Model of `[...new Set(prices)]`: removes duplicates keeping first occurrences. -/
def jsSetDedupAux (seen : List ℚ) : List ℚ → List ℚ
  | [] => []
  | x :: xs =>
    if seen.contains x then jsSetDedupAux seen xs
    else x :: jsSetDedupAux (x :: seen) xs

/-- Model of `[...new Set(prices)]`. -/
def jsSetDedup (l : List ℚ) : List ℚ := jsSetDedupAux [] l

/-- All captures of the four price patterns over the serialized document, in
the source's pattern-major order. -/
def pricePatternCaptures (jsonStr : List Char) : List (List Char) :=
  scanWith p1At jsonStr.length jsonStr ++
  scanWith p2At jsonStr.length jsonStr ++
  scanWith (pKeyAt "\"price\":".toList) jsonStr.length jsonStr ++
  scanWith (pKeyAt "\"cost\":".toList) jsonStr.length jsonStr

/-- Model of `extractPrices(data)`: scan `JSON.stringify(data)` with the four price
patterns, parse each capture, keep values in `[0, 100000)`, and de-duplicate
via a `Set`. -/
def extractPrices (data : Json) : List ℚ :=
  let jsonStr := (Json.stringify data).toList
  jsSetDedup (((pricePatternCaptures jsonStr).map parseCap).filter
    fun price => decide (0 ≤ price) && decide (price < 100000))

/-- The loop body of `findClosestPrice`: keep the price minimizing
`|target − price|` (the first minimizer wins, since later ties fail the
strict `<`). -/
def closestStep (target : ℚ) (acc : ℚ × ℚ) (price : ℚ) : ℚ × ℚ :=
  let diff := |target - price|
  if diff < acc.2 then (price, diff) else acc

/-- Model of `findClosestPrice(target, prices)`: the price minimizing `|target − p|`,
accepted only when within 20% of the target.  In JS `minDiff / target < 0.2`
at `target = 0` divides by zero and yields `Infinity` or `NaN`, both of
which fail the comparison; the explicit `target ≠ 0` conjunct reproduces
that (for `target < 0` the exact and the JS comparison agree since
`minDiff ≥ 0`). -/
def findClosestPrice (target : ℚ) (prices : List ℚ) : Option ℚ :=
  match prices with
  | [] => none
  | p0 :: _ =>
    let cm := prices.foldl (closestStep target) (p0, |target - p0|)
    if target ≠ 0 ∧ cm.2 / target < 0.2 then some cm.1 else none

/-- Model of `validateCore(data, errors)`: reject non-objects, serializations shorter
than 100 characters, and documents without pricing- or limits-domain
vocabulary.  (`!data || typeof data !== 'object'` fails exactly on the
non-object, non-array JSON values: `null` is falsy and the remaining
primitives have a different `typeof`.) -/
def validateCore (data : Json) : Bool × List VErr :=
  match data with
  | Json.obj _ | Json.arr _ =>
    let dataStr := Json.stringify data
    if dataStr.length < 100 then (false, [VErr.dataTooSmall])
    else
      let hasExpectedFields :=
        hasAnyProperty data ["price", "cost", "plan", "tier", "free", "pro", "enterprise"] ||
        hasAnyProperty data ["limits", "quotas", "features", "included"]
      if !hasExpectedFields then (false, [VErr.missingExpectedFields])
      else (true, [])
  | _ => (false, [VErr.dataEmpty])

/-- Model of `validateVercel(data, warnings)`: structure misses become warnings only;
the function always returns `true`. -/
def validateVercel (data : Json) : Bool × List VWarning :=
  let hasPlans :=
    hasAnyProperty data ["hobby", "pro", "enterprise"] ||
    hasAnyProperty data ["tiers", "plans"]
  let w1 := if !hasPlans then [VWarning.vercelMissingPlans] else []
  let hasLimits := hasAnyProperty data ["bandwidth", "buildMinutes", "functions"]
  let w2 := if !hasLimits then [VWarning.vercelMissingLimits] else []
  (true, w1 ++ w2)

/-- Model of `validateNetlify(data, warnings)`: same shape as the Vercel check. -/
def validateNetlify (data : Json) : Bool × List VWarning :=
  let hasPlans :=
    hasAnyProperty data ["free", "pro", "business", "enterprise"] ||
    hasAnyProperty data ["plans", "tiers"]
  let w1 := if !hasPlans then [VWarning.netlifyMissingPlans] else []
  let hasFeatures := hasAnyProperty data ["bandwidth", "buildMinutes", "functions", "edgeFunctions"]
  let w2 := if !hasFeatures then [VWarning.netlifyMissingFeatures] else []
  (true, w1 ++ w2)

/-- Model of `validateProvider(provider, data, warnings)`. -/
def validateProvider (provider : String) (data : Json) : Bool × List VWarning :=
  if provider = "vercel" then validateVercel data
  else if provider = "netlify" then validateNetlify data
  else (true, [])

/-- The price-change loop of `validateStatistically`: for each new price, the
closest old price (JS-truthy, so a matched `0` is skipped) is compared and a
warning pushed when the relative change exceeds 50%. -/
def priceChangeWarnings (oldPrices : List ℚ) : List ℚ → List VWarning
  | [] => []
  | price :: rest =>
    let tail := priceChangeWarnings oldPrices rest
    match findClosestPrice price oldPrices with
    | some closestOld =>
      if closestOld ≠ 0 then
        let change := |price - closestOld| / closestOld
        if change > 0.5 then VWarning.priceChange closestOld price :: tail else tail
      else tail
    | none => tail

/-- Model of `validateStatistically(provider, newData, warnings)`: no historical data
means no comparison; otherwise a serialized-size comparison and the
price-change loop, both warning-only.  Always returns `true`. -/
def validateStatistically (newData : Json) (historical : Option PricingData) :
    Bool × List VWarning :=
  match historical with
  | none => (true, [])
  | some hist =>
    let oldSize : ℚ := ((Json.stringify hist.data).length : ℕ)
    let newSize : ℚ := ((Json.stringify newData).length : ℕ)
    let sizeChange := |oldSize - newSize| / oldSize
    let sizeW := if sizeChange > 0.5 then [VWarning.dataSizeChanged sizeChange] else []
    let oldPrices := extractPrices hist.data
    let newPrices := extractPrices newData
    (true, sizeW ++ priceChangeWarnings oldPrices newPrices)

/-- The per-price loop of `validateSemantically`: a negative price pushes a
warning and returns `false` immediately (skipping the remaining prices and
the duplicate scan); a price above 100000 pushes a warning and continues. -/
def semanticPriceLoop : List ℚ → Bool × List VWarning
  | [] => (true, [])
  | price :: rest =>
    if price < 0 then (false, [VWarning.negativePrice price])
    else
      let hw := if price > 100000 then [VWarning.highPrice price] else []
      let (ok, ws) := semanticPriceLoop rest
      (ok, hw ++ ws)

/-- Lazy `(.+?)` before a `[,}]` terminator: the shortest capture of length
at least one followed by `,` or `}`. -/
def lazyCapAux (acc : List Char) : List Char → Option (List Char)
  | [] => none
  | c :: rest => if c = ',' || c = '}' then some acc.reverse else lazyCapAux (c :: acc) rest

/-- Lazy `(.+?)[,}]` at the head of the list. -/
def lazyCap : List Char → Option (List Char)
  | [] => none
  | c0 :: rest => lazyCapAux [c0] rest

/-- Model of `\s*` with backtracking: the longest whitespace run is consumed first and
shortened on failure, the remaining whitespace then falling into the `.+?`
capture. -/
def wsBacktrack : ℕ → List Char → Option (List Char)
  | 0, l => lazyCap l
  | k + 1, l =>
    match lazyCap (l.drop (k + 1)) with
    | some r => some r
    | none => wsBacktrack k l

/-- Model of `line.match(/:\s*(.+?)[,}]/)?.[1]`: the pattern anchors on a `:`;
successive start positions are tried leftmost-first. -/
def lineValue : List Char → Option (List Char)
  | [] => none
  | c :: rest =>
    match (if c = ':' then wsBacktrack (rest.takeWhile jsWhitespace).length rest else none) with
    | some v => some v
    | none => lineValue rest

/-- Model of `seen.get`: first binding wins (`Map.set` below keeps bindings unique). -/
def lookupSeen : List (String × ℕ) → String → Option ℕ
  | [], _ => none
  | (k, v) :: rest, key => if k = key then some v else lookupSeen rest key

/-- Model of `seen.set`: replace the existing binding or append a new one. -/
def setSeen : List (String × ℕ) → String → ℕ → List (String × ℕ)
  | [], key, v => [(key, v)]
  | (k, v0) :: rest, key, v =>
    if k = key then (key, v) :: rest else (k, v0) :: setSeen rest key v

/-- The duplicate scan of `validateSemantically`: over the trimmed lines of
`JSON.stringify(data, null, 2)`, lines mentioning `"price"` or `"cost"`
(case-sensitively) have their value captured; a value already seen more than
5 lines away is reported as a duplicate, and the value's line is recorded
either way. -/
def dupScan (seen : List (String × ℕ)) (i : ℕ) : List String → List VWarning
  | [] => []
  | ln :: rest =>
    let line := jsTrim ln
    if strIncludes line "\"price\"" || strIncludes line "\"cost\"" then
      match lineValue line.toList with
      | some v =>
        let vs := String.mk v
        let w := match lookupSeen seen vs with
          | some prevLine => if ((i : ℤ) - prevLine).natAbs > 5 then [VWarning.duplicateValue vs] else []
          | none => []
        w ++ dupScan (setSeen seen vs i) (i + 1) rest
      | none => dupScan seen (i + 1) rest
    else dupScan seen (i + 1) rest

/-- Model of `validateSemantically(data, warnings)`: the price plausibility loop
followed (unless it returned early) by the duplicate scan.  Apart from the
early `return false` on a negative price, the function returns `true`. -/
def validateSemantically (data : Json) : Bool × List VWarning :=
  let prices := extractPrices data
  let (ok, pws) := semanticPriceLoop prices
  if !ok then (false, pws)
  else
    let jsonStr := Json.stringify2 data
    let lines := splitLines jsonStr
    (true, pws ++ dupScan [] 0 lines)

/-- Model of `validate(provider, data, confidence)` from `src/validation/pipeline.ts`.
The KV read (`getCurrentPricing`) inside the statistical layer is the
`historical` argument.  The four layers run unconditionally; the decision is
`coreValid && finalConfidence > 0.5` with
`finalConfidence = (confidence + validationScore) / 2` and `validationScore`
the average of the four layer scores. -/
def validate (provider : String) (data : Json) (confidence : ℚ)
    (historical : Option PricingData) : ValidationResult :=
  let (coreValid, errors0) := validateCore data
  let (providerValid, pw) := validateProvider provider data
  let (statsValid, sw) := validateStatistically data historical
  let (semanticValid, mw) := validateSemantically data
  let warnings := pw ++ sw ++ mw
  let validationScore :=
    ((if coreValid then (1 : ℚ) else 0) + (if providerValid then 0.8 else 0) +
      (if statsValid then 0.7 else 0.5) + (if semanticValid then 0.9 else 0.5)) / 4
  let finalConfidence := (confidence + validationScore) / 2
  let valid := coreValid && decide (finalConfidence > 0.5)
  let errors :=
    if !valid && errors0.isEmpty then errors0 ++ [VErr.confidenceTooLow finalConfidence]
    else errors0
  { valid := valid
    confidence := finalConfidence
    data := if valid then some data else none
    errors := errors
    warnings := warnings }

end ValidationPipeline

namespace LLMExtractor

/-!
Model of `LLMExtractor.calculateConfidence` from `src/extraction/llm-extractor.ts`.
The LLM call itself is an external boundary (its result enters the model as
an `ExtractionResult` oracle); the confidence computation over the returned
document is embedded here.
-/

/-- Model of `hasNestedProperty(obj, keywords)`: the serialized object, lowercased,
contains some keyword (lowercased). -/
def hasNestedProperty (obj : Json) (keywords : List String) : Bool :=
  keywords.any fun keyword =>
    strIncludes (toLowerStr (Json.stringify obj)) (toLowerStr keyword)

/-- Property access `data.key` (first binding; `JSON.parse` keeps keys
unique).  Non-objects have no properties. -/
def getField (data : Json) (key : String) : Option Json :=
  match data with
  | Json.obj fields => fields.lookup key
  | _ => none

mutual
/-- The `checkObject` recursion of `countPlansOrTiers`: count objects owning
a `price`, `cost` or `monthly` key, recursing into object-typed values
(`typeof value === 'object'`; primitives contribute nothing, which the
catch-all arm reproduces). -/
def countPriceObjs : Json → ℕ
  | Json.obj fields =>
    (if fields.any (fun kv => kv.1 = "price" || kv.1 = "cost" || kv.1 = "monthly") then 1 else 0)
      + countPriceObjsFields fields
  | Json.arr elems => countPriceObjsList elems
  | _ => 0

def countPriceObjsFields : List (String × Json) → ℕ
  | [] => 0
  | (_, v) :: rest => countPriceObjs v + countPriceObjsFields rest

def countPriceObjsList : List Json → ℕ
  | [] => 0
  | v :: rest => countPriceObjs v + countPriceObjsList rest
end

/-- Model of `countPlansOrTiers(data)`: the length of a `plans`/`tiers`/`products`
array if one exists, otherwise the `checkObject` count capped at 10. -/
def countPlansOrTiers (data : Json) : ℕ :=
  match getField data "plans" with
  | some (Json.arr l) => l.length
  | _ =>
    match getField data "tiers" with
    | some (Json.arr l) => l.length
    | _ =>
      match getField data "products" with
      | some (Json.arr l) => l.length
      | _ => min (countPriceObjs data) 10

/-- Model of `calculateConfidence(data, pages)`: five checks each scoring 0 or 1,
divided by the check count. -/
def calculateConfidence (data : Json) (pages : List PageData) : ℚ :=
  let s1 : ℕ := if hasNestedProperty data ["price", "cost", "pricing", "plans", "tiers"] then 1 else 0
  let s2 : ℕ := if hasNestedProperty data ["limits", "quotas", "included", "allowance"] then 1 else 0
  let s3 : ℕ := if hasNestedProperty data ["features", "capabilities", "included"] then 1 else 0
  let dataSize := (Json.stringify data).length
  let expectedMinSize := pages.length * 500
  let s4 : ℕ := if dataSize ≥ expectedMinSize then 1 else 0
  let tierCount := countPlansOrTiers data
  let s5 : ℕ := if tierCount ≥ 2 then 1 else 0
  (((s1 + s2 + s3 + s4 + s5 : ℕ)) : ℚ) / 5

end LLMExtractor

/-- The Cloudflare KV namespace (`PRICING_DATA`) as seen through the
`KVStore` accessors of `src/storage/kv.ts`: the `pricing:<p>:current`,
`pricing:<p>:<date>` (archive), `scraping:<p>:lock` and
`validation:<p>:last_failure` key families, each modelled as its own map.
Values are stored parsed (the `JSON.stringify`/`JSON.parse` round-trip of the
store is modelled as the identity). -/
structure KVState where
  /-- Model of `pricing:<provider>:current` -/
  current : String → Option PricingData
  /-- Model of `pricing:<provider>:<date>`, the date keyed as an epoch day number -/
  archive : String → ℤ → Option PricingData
  /-- Model of `scraping:<provider>:lock`, the value being the job id -/
  lock : String → Option String
  /-- Model of `validation:<provider>:last_failure` -/
  lastFailure : String → Option ValidationResult

namespace KVStore

/-- Model of `getCurrentPricing(provider)`: read `pricing:<provider>:current`,
`null` when absent. -/
def getCurrentPricing (s : KVState) (provider : String) : Option PricingData :=
  s.current provider

/-- Model of `setCurrentPricing(provider, data)`: write the current pointer and the
day-keyed archive copy (`day` is the epoch day of the write). -/
def setCurrentPricing (s : KVState) (provider : String) (data : PricingData)
    (day : ℤ) : KVState :=
  { s with
    current := fun p => if p = provider then some data else s.current p
    archive := fun p d => if p = provider ∧ d = day then some data else s.archive p d }

/-- Model of `setScrapingLock(provider, jobId)`: create-if-absent; returns whether the
lock was taken. -/
def setScrapingLock (s : KVState) (provider jobId : String) : Bool × KVState :=
  match s.lock provider with
  | some _ => (false, s)
  | none =>
    (true, { s with lock := fun p => if p = provider then some jobId else s.lock p })

/-- Model of `releaseScrapingLock(provider)`: delete the lock key. -/
def releaseScrapingLock (s : KVState) (provider : String) : KVState :=
  { s with lock := fun p => if p = provider then none else s.lock p }

/-- Model of `setLastFailure(provider, failure)`. -/
def setLastFailure (s : KVState) (provider : String) (failure : ValidationResult) : KVState :=
  { s with lastFailure := fun p => if p = provider then some failure else s.lastFailure p }

end KVStore

/-- Model of `inferSourceType(url)` from `src/api/providers/route.ts`. -/
def inferSourceType (url : String) : SourceType :=
  let path := toLowerStr url
  if strIncludes path "pricing" then SourceType.pricing
  else if strIncludes path "limits" then SourceType.limits
  else if strIncludes path "fair-use" then SourceType.fairUse
  else SourceType.docs

/-- The external effects one run of `performScraping` awaits, as oracles:
the scraper call, the three R2 archive writes, and the LLM extraction.  An
`Except.error` value is the call throwing (rejecting). -/
structure Stages where
  /-- Model of `scraper.scrapeProvider(provider)` -/
  scrape : Except String ScrapingResult
  /-- Model of `r2Storage.saveScrapingResult(...)` -/
  saveScraping : Except String Unit
  /-- Model of `extractor.extract(provider, pages)` -/
  extract : Except String ExtractionResult
  /-- Model of `r2Storage.saveExtractionResult(...)` -/
  saveExtraction : Except String Unit
  /-- Model of `r2Storage.saveValidationReport(...)` -/
  saveValidation : Except String Unit
  /-- Model of `Date.now()` at the point the snapshot is assembled -/
  now : ℤ

/-- The `PricingData` object assembled at step 7 of `performScraping`. -/
def mkPricingData (provider : String) (sr : ScrapingResult) (er : ExtractionResult)
    (vr : ValidationResult) (now : ℤ) : PricingData :=
  { provider := provider
    scrapedAt := now
    sources := sr.pages.map fun page =>
      { url := page.url, type := inferSourceType page.url, scrapedAt := page.scrapedAt }
    data := er.data
    metadata :=
      { confidence := vr.confidence
        extractionModel := er.model
        processingTime := sr.duration
        schemaVersion := "2024-11-20" } }

/-- The `try` block of `performScraping(provider, jobId, env)`: scrape, save
raw data, extract, save extraction, validate, save the validation report,
then either record the failure and throw, or commit the new snapshot.
Returns the settled value (`Except.error` = the block threw) and the KV
state. -/
def performScrapingTry (st : Stages) (provider : String) (s : KVState) :
    Except String PricingData × KVState :=
  match st.scrape with
  | Except.error e => (Except.error e, s)
  | Except.ok scrapingResult =>
    if !scrapingResult.success then
      (Except.error ((scrapingResult.error).getD "Scraping failed"), s)
    else
      match st.saveScraping with
      | Except.error e => (Except.error e, s)
      | Except.ok _ =>
        match st.extract with
        | Except.error e => (Except.error e, s)
        | Except.ok extractionResult =>
          match st.saveExtraction with
          | Except.error e => (Except.error e, s)
          | Except.ok _ =>
            let validationResult := ValidationPipeline.validate provider
              extractionResult.data extractionResult.confidence
              (KVStore.getCurrentPricing s provider)
            match st.saveValidation with
            | Except.error e => (Except.error e, s)
            | Except.ok _ =>
              if !validationResult.valid then
                let s1 := KVStore.setLastFailure s provider validationResult
                (Except.error "Validation failed", s1)
              else
                let pricingData := mkPricingData provider scrapingResult
                  extractionResult validationResult st.now
                let s1 := KVStore.setCurrentPricing s provider pricingData
                  (st.now / 86400000)
                (Except.ok pricingData, s1)

/-- Model of `performScraping(provider, jobId, env)`: the `try` block above wrapped in
`finally { await kvStore.releaseScrapingLock(provider) }` — the release runs
on both the return and the throw paths.  (`jobId` is accepted but, as in the
source, unused by the body.) -/
def performScraping (st : Stages) (provider jobId : String) (s : KVState) :
    Except String PricingData × KVState :=
  let (result, s1) := performScrapingTry st provider s
  (result, KVStore.releaseScrapingLock s1 provider)

/-- The response of `GET /:provider` (`providersRouter.get` in
`src/api/providers/route.ts`): the current snapshot, or a 404
`NOT_FOUND` error body when `getCurrentPricing` returned `null`. -/
inductive GetResponse where
  /-- HTTP 404 with an error body -/
  | notFound
  /-- HTTP 200 with the snapshot -/
  | ok (data : PricingData)
deriving Repr

/-- The `GET /:provider` handler: a single `getCurrentPricing` read decides
the response; no other key is consulted. -/
def getProviderRoute (provider : String) (s : KVState) : GetResponse :=
  match KVStore.getCurrentPricing s provider with
  | none => GetResponse.notFound
  | some data => GetResponse.ok data

/-- The responses of `POST /:provider/refresh`. -/
inductive RefreshResponse where
  /-- HTTP 404: unknown provider -/
  | notFound
  /-- HTTP 202 already_running -/
  | alreadyRunning
  /-- HTTP 202 accepted, message "Recent data exists, use force=true to refresh" -/
  | recentData (jobId : String)
  /-- HTTP 202 accepted, message "Scraping job accepted, processing in background" -/
  | acceptedBackground (jobId : String)
  /-- HTTP 200 with the scraping result (`wait=true`) -/
  | completed (data : PricingData)
  /-- HTTP 500 with the error (`wait=true`) -/
  | scrapingFailed (message : String)
deriving Repr

/-- The `POST /:provider/refresh` handler.  Control flow of the source, in
order: provider-existence check, `setScrapingLock` (the lock is attempted
FIRST), the freshness check (`force=false` and current data younger than one
hour short-circuits, releasing the lock), then `performScraping` — awaited
when `wait=true`, scheduled via `executionCtx.waitUntil` otherwise (the
background run is modelled as running to completion before the final state
is observed, which is what `waitUntil` guarantees).  Returns the response,
the resulting KV state, and the number of `scraper.scrapeProvider`
invocations performed (0 or 1). -/
def refreshRoute (providers : List String) (provider : String) (force wait : Bool)
    (st : Stages) (now : ℤ) (s : KVState) : RefreshResponse × KVState × ℕ :=
  if !providers.contains provider then (RefreshResponse.notFound, s, 0)
  else
    let jobId := "job-" ++ provider ++ "-" ++ toString now
    let (locked, s1) := KVStore.setScrapingLock s provider jobId
    if !locked then (RefreshResponse.alreadyRunning, s1, 0)
    else
      let fresh :=
        if force then false
        else match KVStore.getCurrentPricing s1 provider with
          | some existing => decide (now - existing.scrapedAt < 60 * 60 * 1000)
          | none => false
      if fresh then
        (RefreshResponse.recentData jobId, KVStore.releaseScrapingLock s1 provider, 0)
      else if !wait then
        let (_, s2) := performScraping st provider jobId s1
        (RefreshResponse.acceptedBackground jobId, s2, 1)
      else
        match performScraping st provider jobId s1 with
        | (Except.ok result, s2) => (RefreshResponse.completed result, s2, 1)
        | (Except.error e, s2) => (RefreshResponse.scrapingFailed e, s2, 1)

namespace UniversalScraper

/-!
Model of `UniversalScraper` from `src/scraping/universal-scraper.ts`.  Network and
browser effects are oracles indexed by URL; the HTML-to-text cleanup applied
to the fetched markup is pure processing of external input and enters the
model inside the oracle's successful payload.
-/

/-- The outcome of the `fetch(url)` call of `tryFetchPages`, together with
the title/text derived from the body when the response is usable. -/
inductive FetchOutcome where
  /-- Model of `response.ok`: the fetched html with its derived text and title -/
  | ok (html text title : String)
  /-- Model of `!response.ok` (an HTTP error status) -/
  | httpError (status : ℕ)
  /-- the `fetch` or body read threw -/
  | threw (message : String)
deriving Repr

/-- Model of `tryFetchPages(config)`: one sequential `fetch` per configured URL.
A thrown error is absorbed into a `PageData` with empty content and a
populated `error` field; an HTTP error status hits the `continue` statement,
producing no entry at all for that URL. -/
def tryFetchPages (fetch : String → FetchOutcome) (urls : List String) (now : ℤ) :
    List PageData :=
  match urls with
  | [] => []
  | url :: rest =>
    match fetch url with
    | FetchOutcome.ok html text title =>
      { url := url, html := html, text := text, title := title,
        scrapedAt := now } :: tryFetchPages fetch rest now
    | FetchOutcome.httpError _ => tryFetchPages fetch rest now
    | FetchOutcome.threw message =>
      { url := url, html := "", text := "", title := "Error",
        scrapedAt := now, error := some message } :: tryFetchPages fetch rest now

/-- The error `PageData` built in the `catch` of a `scrapeAllPages` batch
entry. -/
def errorPage (url : String) (message : String) (now : ℤ) : PageData :=
  { url := url, html := "", text := "", screenshot := some "",
    title := "Error loading page", scrapedAt := now, error := some message }

/-- What a successful `scrapePage(browser, url, config)` hands back: the
rendered markup, the extracted text, the screenshot and the title (the
`PageData` it returns carries these together with the requested `url` and
the capture time). -/
structure RenderedPage where
  html : String
  text : String
  screenshot : String
  title : String
deriving Repr, DecidableEq

/-- One batch entry of `scrapeAllPages`: `scrapePage` resolving gives its
`PageData` (whose `url` is the requested one); a rejection is caught and
replaced by `errorPage`. -/
def scrapeEntry (scrape : String → Except String RenderedPage) (now : ℤ)
    (url : String) : PageData :=
  match scrape url with
  | Except.ok r =>
    { url := url, html := r.html, text := r.text, screenshot := some r.screenshot,
      title := r.title, scrapedAt := now }
  | Except.error message => errorPage url message now

/-- Model of `scrapeAllPages(browser, config)`: URLs processed in batches of
`maxConcurrent = 3` (`urls.splice(0, 3)` then `Promise.all`, which preserves
the batch order); one page's failure never cancels sibling pages. -/
def scrapeAllPages (scrape : String → Except String RenderedPage) (urls : List String)
    (now : ℤ) : List PageData :=
  match urls with
  | [] => []
  | [u1] => [scrapeEntry scrape now u1]
  | [u1, u2] => [scrapeEntry scrape now u1, scrapeEntry scrape now u2]
  | u1 :: u2 :: u3 :: rest =>
    scrapeEntry scrape now u1 :: scrapeEntry scrape now u2 :: scrapeEntry scrape now u3 ::
      scrapeAllPages scrape rest now

end UniversalScraper

/-- Is this warning the "Detected ...% price change" one? -/
def VWarning.isPriceChange : VWarning → Bool
  | VWarning.priceChange _ _ => true
  | _ => false

/-- Is this warning one of the two price-plausibility warnings of the
semantic layer (negative price / unusually high price)? -/
def VWarning.isPricePlausibility : VWarning → Bool
  | VWarning.negativePrice _ => true
  | VWarning.highPrice _ => true
  | _ => false

/-- Did the `fetch` of `tryFetchPages` return a non-OK HTTP status (the
`continue` branch)? -/
def UniversalScraper.FetchOutcome.isHttpErr : UniversalScraper.FetchOutcome → Bool
  | UniversalScraper.FetchOutcome.httpError _ => true
  | _ => false

/-!  Concrete fixtures used by the closed counterexamples and witnesses. -/

/-- A KV namespace with no keys at all. -/
def emptyKV : KVState :=
  { current := fun _ => none
    archive := fun _ _ => none
    lock := fun _ => none
    lastFailure := fun _ => none }

/-- A minimal accepted snapshot captured at time `t`. -/
def snapshotAt (t : ℤ) : PricingData :=
  { provider := "vercel"
    scrapedAt := t
    sources := []
    data := Json.obj [("plans", Json.arr [Json.obj [("name", Json.str "Pro"), ("price", Json.num 20)]])]
    metadata :=
      { confidence := 0.9
        extractionModel := "gpt-4-turbo"
        processingTime := 100
        schemaVersion := "2024-11-20" } }

/-- KV state: `vercel` has a current snapshot captured at time 0, no lock. -/
def freshKV : KVState :=
  { emptyKV with current := fun p => if p = "vercel" then some (snapshotAt 0) else none }

/-- Model of `freshKV` but with the `vercel` lock held by an earlier job. -/
def heldLockKV : KVState :=
  { freshKV with lock := fun p => if p = "vercel" then some "job-vercel-0" else none }

/-- KV state: no current snapshot for `vercel`, but an archive entry from an
earlier day exists. -/
def archiveOnlyKV : KVState :=
  { emptyKV with archive := fun p d => if p = "vercel" ∧ d = -1 then some (snapshotAt (-86400000)) else none }

/-- A stage oracle whose external calls all succeed, extraction returning an
empty document (which the core check rejects). -/
def emptyDocStages : Stages :=
  { scrape := Except.ok
      { success := true
        provider := "vercel"
        pages := [{ url := "https://vercel.com/pricing", html := "<html></html>",
                    text := "Pricing", title := "Pricing", scrapedAt := 0 }]
        duration := 100 }
    saveScraping := Except.ok ()
    extract := Except.ok
      { data := Json.obj [], confidence := 0.9, model := "gpt-4-turbo", tokensUsed := 1000 }
    saveExtraction := Except.ok ()
    saveValidation := Except.ok ()
    now := 1000 }

/-- An extracted document that contains the negative price-like value
`"price": -5` (and enough pricing vocabulary and bulk to pass the core
check). -/
def negPriceDoc : Json :=
  Json.obj
    [("description", Json.str "Acme cloud platform pricing plans with bandwidth, build minutes and serverless functions included"),
     ("price", Json.num (-5))]

/-- The previously accepted document of the 125%-price-change scenario: a
matching tier priced at 20. -/
def prevTierDoc : Json :=
  Json.obj
    [("plan", Json.str "Pro plan with bandwidth, build minutes and serverless functions for professional teams"),
     ("price", Json.num 20)]

/-- The new extraction of the 125%-price-change scenario: the matching tier
now priced at 45. -/
def newTierDoc : Json :=
  Json.obj
    [("plan", Json.str "Pro plan with bandwidth, build minutes and serverless functions for professional teams"),
     ("price", Json.num 45)]

/-- The accepted snapshot holding `prevTierDoc`. -/
def prevTierSnapshot : PricingData :=
  { provider := "vercel"
    scrapedAt := 0
    sources := []
    data := prevTierDoc
    metadata :=
      { confidence := 0.9
        extractionModel := "gpt-4-turbo"
        processingTime := 100
        schemaVersion := "2024-11-20" } }

/-- Per-URL browser oracle for the acquirer witness: the second URL's
`scrapePage` rejects, the rest resolve. -/
def scrapeOracleW : String → Except String UniversalScraper.RenderedPage := fun url =>
  if url = "https://b.example/pricing" then Except.error "net timeout"
  else Except.ok { html := "<html>", text := "Pricing text", screenshot := "", title := "Pricing" }

/-- Per-URL fetch oracle for the acquirer witness: the second URL's `fetch`
throws, the rest respond OK. -/
def fetchOracleW : String → UniversalScraper.FetchOutcome := fun url =>
  if url = "https://b.example/pricing" then UniversalScraper.FetchOutcome.threw "net timeout"
  else UniversalScraper.FetchOutcome.ok "<html>" "Pricing text" "Pricing"

namespace ValidationPipeline

/-- The second component of the `closestStep` fold is the distance from the
target to the first component. -/
theorem closestFold_snd (target : ℚ) (l : List ℚ) (acc : ℚ × ℚ)
    (h : acc.2 = |target - acc.1|) :
    (l.foldl (closestStep target) acc).2 = |target - (l.foldl (closestStep target) acc).1| := by
  induction l generalizing acc with
  | nil => simpa using h
  | cons p rest ih =>
    simp only [List.foldl_cons]
    apply ih
    simp only [closestStep]
    split
    · rfl
    · exact h

/-- What a successful `findClosestPrice` guarantees: the target is nonzero
and the returned price is within the 20% band. -/
theorem findClosestPrice_some (target c : ℚ) (prices : List ℚ)
    (h : findClosestPrice target prices = some c) :
    target ≠ 0 ∧ |target - c| / target < 0.2 := by
  match prices with
  | [] => simp [findClosestPrice] at h
  | p0 :: rest =>
    simp only [findClosestPrice] at h
    by_cases hcond : target ≠ 0 ∧
        ((p0 :: rest).foldl (closestStep target) (p0, |target - p0|)).2 / target < 0.2
    · rw [if_pos hcond] at h
      have hc : ((p0 :: rest).foldl (closestStep target) (p0, |target - p0|)).1 = c :=
        Option.some.inj h
      have hsnd := closestFold_snd target (p0 :: rest) (p0, |target - p0|) rfl
      refine ⟨hcond.1, ?_⟩
      rw [← hc, ← hsnd]
      exact hcond.2
    · rw [if_neg hcond] at h
      exact absurd h (by simp)

/-- A matched price for a positive target is strictly positive (and close). -/
theorem findClosestPrice_pos (target c : ℚ) (prices : List ℚ)
    (h : findClosestPrice target prices = some c) (ht : 0 < target) :
    |target - c| < 0.2 * target ∧ 4/5 * target < c := by
  obtain ⟨-, hlt⟩ := findClosestPrice_some target c prices h
  rw [div_lt_iff₀ ht] at hlt
  constructor
  · linarith
  · have h1 : target - c ≤ |target - c| := le_abs_self _
    nlinarith

end ValidationPipeline

namespace ValidationPipeline

/-- Every element surviving `jsSetDedupAux` came from the input list. -/
theorem jsSetDedupAux_subset (seen : List ℚ) (l : List ℚ) (p : ℚ)
    (h : p ∈ jsSetDedupAux seen l) : p ∈ l := by
  induction l generalizing seen with
  | nil => simp [jsSetDedupAux] at h
  | cons x xs ih =>
    simp only [jsSetDedupAux] at h
    split at h
    · exact List.mem_cons_of_mem _ (ih _ h)
    · rcases List.mem_cons.mp h with h1 | h1
      · exact h1 ▸ List.mem_cons_self _ _
      · exact List.mem_cons_of_mem _ (ih _ h1)

/-- Every extracted price is in `[0, 100000)` — the very filter of
`extractPrices`. -/
theorem extractPrices_bounds (data : Json) (p : ℚ) (h : p ∈ extractPrices data) :
    0 ≤ p ∧ p < 100000 := by
  have h1 := jsSetDedupAux_subset [] _ p h
  have h2 := (List.mem_filter.mp h1).2
  simp only [Bool.and_eq_true, decide_eq_true_eq] at h2
  exact h2

/-- On a list of prices all inside `[0, 100000)` the semantic price loop
succeeds without warnings: both the negative branch and the high-price
branch are unreachable. -/
theorem semanticPriceLoop_inRange (prices : List ℚ)
    (h : ∀ p ∈ prices, 0 ≤ p ∧ p < 100000) :
    semanticPriceLoop prices = (true, []) := by
  induction prices with
  | nil => rfl
  | cons p rest ih =>
    obtain ⟨h0, h1⟩ := h p (List.mem_cons_self _ _)
    have hrest := ih fun q hq => h q (List.mem_cons_of_mem _ hq)
    simp only [semanticPriceLoop, hrest]
    rw [if_neg (by exact not_lt.mpr h0), if_neg (by exact not_lt.mpr (le_of_lt h1))]
    simp

/-- The duplicate scan only ever pushes `duplicateValue` warnings. -/
theorem dupScan_only_duplicates (lines : List String) (seen : List (String × ℕ)) (i : ℕ)
    (w : VWarning) (h : w ∈ dupScan seen i lines) : ∃ v, w = VWarning.duplicateValue v := by
  induction lines generalizing seen i with
  | nil => simp [dupScan] at h
  | cons ln rest ih =>
    simp only [dupScan] at h
    split at h
    · split at h
      · rename_i v heq
        rcases List.mem_append.mp h with h1 | h1
        · split at h1
          · split at h1
            · simp only [List.mem_singleton] at h1
              exact ⟨_, h1⟩
            · simp at h1
          · simp at h1
        · exact ih _ _ h1
      · exact ih _ _ h
    · exact ih _ _ h

/-- A matched new price never triggers the 50% change warning: the 20% match
band caps the relative change at 25%. -/
theorem priceChangeWarnings_nil (oldPrices newPrices : List ℚ)
    (h : ∀ p ∈ newPrices, 0 ≤ p) :
    priceChangeWarnings oldPrices newPrices = [] := by
  induction newPrices with
  | nil => rfl
  | cons price rest ih =>
    have hrest := ih fun q hq => h q (List.mem_cons_of_mem _ hq)
    simp only [priceChangeWarnings, hrest]
    cases hfc : findClosestPrice price oldPrices with
    | none => rfl
    | some closestOld =>
      dsimp only
      by_cases hz : closestOld ≠ 0
      · rw [if_pos hz]
        obtain ⟨hne, -⟩ := findClosestPrice_some price closestOld oldPrices hfc
        have hpos : 0 < price :=
          lt_of_le_of_ne (h price (List.mem_cons_self _ _)) (Ne.symm hne)
        obtain ⟨habs, hlow⟩ := findClosestPrice_pos price closestOld oldPrices hfc hpos
        have hcpos : 0 < closestOld := by nlinarith
        have : |price - closestOld| / closestOld ≤ 0.5 := by
          rw [div_le_iff₀ hcpos]
          have : |price - closestOld| = |closestOld - price| := abs_sub_comm _ _
          nlinarith [abs_nonneg (price - closestOld)]
        rw [if_neg (by exact not_lt.mpr this)]
      · rw [if_neg hz]

end ValidationPipeline

set_option maxRecDepth 1000000

/-- C10: `findClosestPrice` returns `null` for target 0; a non-null match
`c` for a target `t > 0` satisfies `|t − c|/t < 0.2` and hence `c > 0`, so
the relative-change division by the matched old price in
`validateStatistically` never divides by zero. -/
theorem findClosestPrice_zero_target_and_matched_positive
    (prices : List ℚ) (target c : ℚ)
    (hnn : ∀ p ∈ prices, 0 ≤ p)
    (hmatch : ValidationPipeline.findClosestPrice target prices = some c)
    (ht : 0 < target) :
    ValidationPipeline.findClosestPrice 0 prices = none ∧
    |target - c| / target < 0.2 ∧ 0 < c := by
  refine ⟨?_, (ValidationPipeline.findClosestPrice_some target c prices hmatch).2, ?_⟩
  · cases prices with
    | nil => rfl
    | cons p0 rest => simp [ValidationPipeline.findClosestPrice]
  · obtain ⟨-, hlow⟩ := ValidationPipeline.findClosestPrice_pos target c prices hmatch ht
    linarith

theorem findClosestPrice_zero_target_and_matched_positive_witness :
    ValidationPipeline.findClosestPrice 0 [(20 : ℚ)] = none ∧
    |(21 : ℚ) - 20| / 21 < 0.2 ∧ (0 : ℚ) < 20 :=
  findClosestPrice_zero_target_and_matched_positive [20] 21 20
    (by intro p hp; rw [List.mem_singleton] at hp; rw [hp]; norm_num)
    (by decide) (by norm_num)

/-- C9 counterexample: with the previous snapshot priced at 20 and the new
extraction at 45 the statistical layer emits NO warning at all — 20 is
outside the 20% match band of 45 (`findClosestPrice` returns `null`), so the
claimed price-change warning never appears. -/
theorem price_change_warning_not_emitted :
    ValidationPipeline.extractPrices prevTierDoc = [20] ∧
    ValidationPipeline.extractPrices newTierDoc = [45] ∧
    ValidationPipeline.findClosestPrice 45 [20] = none ∧
    ValidationPipeline.validateStatistically newTierDoc (some prevTierSnapshot) = (true, []) :=
  ⟨by decide, by decide, by decide, by decide⟩

/-- C9 amended: the statistical layer never rejects (it always returns
`true`) and never emits the price-change warning for any input: a matched
old price is within 20% of the new price, capping the relative change at
25%, below the 50% warning threshold. -/
theorem statistical_layer_never_warns_price_change (newData : Json)
    (historical : Option PricingData) :
    (ValidationPipeline.validateStatistically newData historical).1 = true ∧
    ((ValidationPipeline.validateStatistically newData historical).2.all
      fun w => !w.isPriceChange) = true := by
  cases historical with
  | none => exact ⟨rfl, rfl⟩
  | some hist =>
    have hnil := ValidationPipeline.priceChangeWarnings_nil
      (ValidationPipeline.extractPrices hist.data)
      (ValidationPipeline.extractPrices newData)
      (fun p hp => (ValidationPipeline.extractPrices_bounds newData p hp).1)
    simp only [ValidationPipeline.validateStatistically, hnil]
    constructor
    · trivial
    · split <;> trivial

/-- C8 counterexample: a document containing the negative price-like value
`"price": -5` is NOT rejected — the price patterns never extract a negative
value, the semantic layer returns `true` with no warnings, and the whole
pipeline accepts the document. -/
theorem negative_price_document_accepted :
    ValidationPipeline.extractPrices negPriceDoc = [] ∧
    ValidationPipeline.validateSemantically negPriceDoc = (true, []) ∧
    (ValidationPipeline.validate "acme" negPriceDoc 0.9 none).valid = true :=
  ⟨by decide, by decide, by decide⟩

/-- C8 amended: extracted price-like values always lie in `[0, 100000)`, so
the semantic layer never sees a negative or extremely large price: it never
rejects (always returns `true`) and never emits the negative-price or
high-price warning, for any document. -/
theorem semantic_layer_never_rejects (data : Json) :
    (ValidationPipeline.validateSemantically data).1 = true ∧
    ((ValidationPipeline.extractPrices data).all
      fun p => decide (0 ≤ p) && decide (p < 100000)) = true ∧
    ((ValidationPipeline.validateSemantically data).2.all
      fun w => !w.isPricePlausibility) = true := by
  have hloop := ValidationPipeline.semanticPriceLoop_inRange
    (ValidationPipeline.extractPrices data)
    (fun p hp => ValidationPipeline.extractPrices_bounds data p hp)
  refine ⟨?_, ?_, ?_⟩
  · simp [ValidationPipeline.validateSemantically, hloop]
  · rw [List.all_eq_true]
    intro p hp
    obtain ⟨h0, h1⟩ := ValidationPipeline.extractPrices_bounds data p hp
    simp [h0, h1]
  · simp only [ValidationPipeline.validateSemantically, hloop]
    rw [List.all_eq_true]
    intro w hw
    simp only [List.nil_append] at hw
    obtain ⟨v, rfl⟩ := ValidationPipeline.dupScan_only_duplicates _ _ _ _ hw
    rfl

/-- C1: every run of `performScraping` leaves the provider's lease released,
whatever the outcome of the scrape, the R2 writes, the extraction, or the
validation — the `finally` applies `releaseScrapingLock` on every exit path. -/
theorem performScraping_releases_lock (st : Stages) (provider jobId : String) (s : KVState) :
    ((performScraping st provider jobId s).2).lock provider = none := by
  unfold performScraping
  simp [KVStore.releaseScrapingLock]

/-- C3: the pipeline accepts iff the core check passes and the final
confidence — the mean of the extraction confidence and the average of the
four layer scores — strictly exceeds 0.5; in particular a core failure
rejects regardless of the other layers. -/
theorem validate_accepts_iff_core_and_threshold (provider : String) (data : Json)
    (confidence : ℚ) (historical : Option PricingData) :
    ((ValidationPipeline.validate provider data confidence historical).confidence =
      (confidence +
        ((if (ValidationPipeline.validateCore data).1 then (1 : ℚ) else 0) +
         (if (ValidationPipeline.validateProvider provider data).1 then 0.8 else 0) +
         (if (ValidationPipeline.validateStatistically data historical).1 then 0.7 else 0.5) +
         (if (ValidationPipeline.validateSemantically data).1 then 0.9 else 0.5)) / 4) / 2) ∧
    ((ValidationPipeline.validate provider data confidence historical).valid = true ↔
      (ValidationPipeline.validateCore data).1 = true ∧
      0.5 < (ValidationPipeline.validate provider data confidence historical).confidence) ∧
    ((ValidationPipeline.validateCore data).1 = false →
      (ValidationPipeline.validate provider data confidence historical).valid = false) := by
  rcases hc : ValidationPipeline.validateCore data with ⟨core, errs⟩
  rcases hp : ValidationPipeline.validateProvider provider data with ⟨prov, pw⟩
  rcases hs : ValidationPipeline.validateStatistically data historical with ⟨stats, sw⟩
  rcases hm : ValidationPipeline.validateSemantically data with ⟨sem, mw⟩
  simp only [ValidationPipeline.validate, hc, hp, hs, hm]
  refine ⟨?_, ?_, ?_⟩
  · first | rfl | trivial
  · simp [Bool.and_eq_true, decide_eq_true_eq, gt_iff_lt]
  · intro hcf
    subst hcf
    simp

/-- C7: for an extraction confidence in `[0,1]` the final confidence of the
pipeline stays in `[0,1]`, and `calculateConfidence` itself always lands in
`[0,1]`. -/
theorem evaluator_confidence_in_unit_interval (provider : String) (data : Json)
    (confidence : ℚ) (historical : Option PricingData) (pages : List PageData)
    (h0 : 0 ≤ confidence) (h1 : confidence ≤ 1) :
    (0 ≤ (ValidationPipeline.validate provider data confidence historical).confidence ∧
      (ValidationPipeline.validate provider data confidence historical).confidence ≤ 1) ∧
    (0 ≤ LLMExtractor.calculateConfidence data pages ∧
      LLMExtractor.calculateConfidence data pages ≤ 1) := by
  constructor
  · rcases hc : ValidationPipeline.validateCore data with ⟨core, errs⟩
    rcases hp : ValidationPipeline.validateProvider provider data with ⟨prov, pw⟩
    rcases hs : ValidationPipeline.validateStatistically data historical with ⟨stats, sw⟩
    rcases hm : ValidationPipeline.validateSemantically data with ⟨sem, mw⟩
    simp only [ValidationPipeline.validate, hc, hp, hs, hm]
    cases core <;> cases prov <;> cases stats <;> cases sem <;>
      constructor <;> norm_num <;> linarith
  · simp only [LLMExtractor.calculateConfidence]
    split_ifs <;> norm_num

theorem evaluator_confidence_in_unit_interval_witness :
    (0 ≤ (ValidationPipeline.validate "vercel" Json.null 0.9 none).confidence ∧
      (ValidationPipeline.validate "vercel" Json.null 0.9 none).confidence ≤ 1) ∧
    (0 ≤ LLMExtractor.calculateConfidence Json.null [] ∧
      LLMExtractor.calculateConfidence Json.null [] ≤ 1) :=
  evaluator_confidence_in_unit_interval "vercel" Json.null 0.9 none []
    (by norm_num) (by norm_num)

/-- C2: a refresh attempt whose validation is rejected never touches the
current pointer (the before/after `getCurrent` values agree for every
provider), settles as a thrown error, and — when the report write succeeds —
records the rejected outcome via `setLastFailure`; moreover (final conjunct)
a run changes the current pointer only by committing a snapshot whose
validation was accepted. -/
theorem rejected_validation_never_promoted
    (st : Stages) (provider jobId : String) (s : KVState)
    (sr : ScrapingResult) (er : ExtractionResult)
    (hs : st.scrape = Except.ok sr) (hsucc : sr.success = true)
    (hr : st.saveScraping = Except.ok ()) (he : st.extract = Except.ok er)
    (hx : st.saveExtraction = Except.ok ())
    (hrej : (ValidationPipeline.validate provider er.data er.confidence
      (KVStore.getCurrentPricing s provider)).valid = false) :
    (performScraping st provider jobId s).2.current = s.current ∧
    (∃ e, (performScraping st provider jobId s).1 = Except.error e) ∧
    (st.saveValidation = Except.ok () →
      (performScraping st provider jobId s).2.lastFailure provider =
        some (ValidationPipeline.validate provider er.data er.confidence
          (KVStore.getCurrentPricing s provider))) ∧
    (∀ (st2 : Stages) (s2 : KVState),
      (performScraping st2 provider jobId s2).2.current provider ≠ s2.current provider →
      ∃ sr2 er2, st2.scrape = Except.ok sr2 ∧ st2.extract = Except.ok er2 ∧
        (ValidationPipeline.validate provider er2.data er2.confidence
          (s2.current provider)).valid = true) := by
  unfold performScraping performScrapingTry
  rw [hs, hr, he, hx]
  simp only [hsucc, Bool.not_true, KVStore.getCurrentPricing] at hrej ⊢
  refine ⟨?_, ?_, ?_, ?_⟩
  · cases hv : st.saveValidation with
    | error e => rfl
    | ok u =>
      cases u
      rw [hrej]
      rfl
  · cases hv : st.saveValidation with
    | error e => exact ⟨e, rfl⟩
    | ok u =>
      cases u
      rw [hrej]
      exact ⟨_, rfl⟩
  · intro hv
    rw [hv, hrej]
    simp [KVStore.setLastFailure, KVStore.releaseScrapingLock]
  · intro st2 s2 hch
    cases hs2 : st2.scrape with
    | error e2 => rw [hs2] at hch; exact absurd rfl hch
    | ok sr2 =>
      simp only [hs2] at hch
      cases hb : sr2.success with
      | false =>
        simp only [hb, Bool.not_false, if_true] at hch
        exact absurd rfl hch
      | true =>
        simp only [hb, Bool.not_true, Bool.false_eq_true, if_false] at hch
        cases hr2 : st2.saveScraping with
        | error e2 => rw [hr2] at hch; exact absurd rfl hch
        | ok u =>
          cases u
          simp only [hr2] at hch
          cases he2 : st2.extract with
          | error e2 => rw [he2] at hch; exact absurd rfl hch
          | ok er2 =>
            simp only [he2] at hch
            cases hx2 : st2.saveExtraction with
            | error e2 => rw [hx2] at hch; exact absurd rfl hch
            | ok u2 =>
              cases u2
              simp only [hx2] at hch
              cases hv2 : st2.saveValidation with
              | error e2 => rw [hv2] at hch; exact absurd rfl hch
              | ok u3 =>
                cases u3
                simp only [hv2] at hch
                cases hvv : (ValidationPipeline.validate provider er2.data er2.confidence
                    (s2.current provider)).valid with
                | false =>
                  simp only [KVStore.getCurrentPricing, hvv, Bool.not_false, if_true] at hch
                  exact absurd rfl hch
                | true => exact ⟨sr2, er2, rfl, rfl, hvv⟩

theorem rejected_validation_never_promoted_witness :
    (performScraping emptyDocStages "vercel" "job-vercel-1000" emptyKV).2.current = emptyKV.current ∧
    (∃ e, (performScraping emptyDocStages "vercel" "job-vercel-1000" emptyKV).1 = Except.error e) ∧
    (emptyDocStages.saveValidation = Except.ok () →
      (performScraping emptyDocStages "vercel" "job-vercel-1000" emptyKV).2.lastFailure "vercel" =
        some (ValidationPipeline.validate "vercel" (Json.obj []) 0.9
          (KVStore.getCurrentPricing emptyKV "vercel"))) ∧
    (∀ (st2 : Stages) (s2 : KVState),
      (performScraping st2 "vercel" "job-vercel-1000" s2).2.current "vercel" ≠ s2.current "vercel" →
      ∃ sr2 er2, st2.scrape = Except.ok sr2 ∧ st2.extract = Except.ok er2 ∧
        (ValidationPipeline.validate "vercel" er2.data er2.confidence
          (s2.current "vercel")).valid = true) :=
  rejected_validation_never_promoted emptyDocStages "vercel" "job-vercel-1000" emptyKV
    { success := true
      provider := "vercel"
      pages := [{ url := "https://vercel.com/pricing", html := "<html></html>",
                  text := "Pricing", title := "Pricing", scrapedAt := 0 }]
      duration := 100 }
    { data := Json.obj [], confidence := 0.9, model := "gpt-4-turbo", tokensUsed := 1000 }
    rfl rfl rfl rfl rfl (by decide)

/-- C4 counterexample: for a non-forced refresh inside the freshness window
the handler does contend for the lease (`setScrapingLock` runs before the
freshness check, so a held lease yields `already_running` even though fresh
data exists) and the caller receives a 202 acceptance message, not the
existing snapshot. -/
theorem freshness_short_circuit_counterexample :
    (refreshRoute ["vercel"] "vercel" false true emptyDocStages 1000 freshKV).1 =
      RefreshResponse.recentData "job-vercel-1000" ∧
    (refreshRoute ["vercel"] "vercel" false true emptyDocStages 1000 heldLockKV).1 =
      RefreshResponse.alreadyRunning :=
  ⟨rfl, rfl⟩

/-- C4 amended: when the lease is free, a non-forced refresh inside the
freshness window performs zero scraper invocations, leaves the stored data
untouched, releases the lease it just acquired, and answers with the
202 "Recent data exists" acceptance message (not the snapshot itself). -/
theorem freshness_short_circuit_behavior (providers : List String) (provider : String)
    (wait : Bool) (st : Stages) (now : ℤ) (s : KVState) (pd : PricingData)
    (hp : providers.contains provider = true) (hl : s.lock provider = none)
    (hc : s.current provider = some pd) (hfresh : now - pd.scrapedAt < 60 * 60 * 1000) :
    (refreshRoute providers provider false wait st now s).1 =
      RefreshResponse.recentData ("job-" ++ provider ++ "-" ++ toString now) ∧
    (refreshRoute providers provider false wait st now s).2.2 = 0 ∧
    (refreshRoute providers provider false wait st now s).2.1.current = s.current ∧
    (refreshRoute providers provider false wait st now s).2.1.lock provider = none := by
  unfold refreshRoute
  simp only [hp, Bool.not_true, if_false, KVStore.setScrapingLock, hl,
    KVStore.getCurrentPricing, hc, Bool.false_eq_true, Bool.not_false, if_true]
  rw [if_pos (by exact decide_eq_true hfresh)]
  refine ⟨rfl, rfl, rfl, ?_⟩
  simp [KVStore.releaseScrapingLock]

theorem freshness_short_circuit_behavior_witness :
    (refreshRoute ["vercel"] "vercel" false true emptyDocStages 1000 freshKV).1 =
      RefreshResponse.recentData ("job-" ++ "vercel" ++ "-" ++ toString (1000 : ℤ)) ∧
    (refreshRoute ["vercel"] "vercel" false true emptyDocStages 1000 freshKV).2.2 = 0 ∧
    (refreshRoute ["vercel"] "vercel" false true emptyDocStages 1000 freshKV).2.1.current = freshKV.current ∧
    (refreshRoute ["vercel"] "vercel" false true emptyDocStages 1000 freshKV).2.1.lock "vercel" = none :=
  freshness_short_circuit_behavior ["vercel"] "vercel" true emptyDocStages 1000 freshKV
    (snapshotAt 0) rfl rfl rfl (by norm_num [snapshotAt])

/-- C5 (code bug): when the current snapshot is absent the read path
returns a 404 `NOT_FOUND` error — no archive entry (however recent) and no
static default is ever consulted, contradicting the documented fallback
chain.  (The only fallback-free behavior the code does honour is "never
throws": the route always produces a response.) -/
theorem current_absent_returns_not_found (provider : String) (s : KVState)
    (h : s.current provider = none) :
    getProviderRoute provider s = GetResponse.notFound := by
  simp [getProviderRoute, KVStore.getCurrentPricing, h]

theorem current_absent_returns_not_found_witness :
    getProviderRoute "vercel" archiveOnlyKV = GetResponse.notFound :=
  current_absent_returns_not_found "vercel" archiveOnlyKV rfl

namespace UniversalScraper

/-- The browser path returns one entry per URL, in order. -/
theorem scrapeAllPages_eq_map (scrape : String → Except String RenderedPage) (now : ℤ) :
    ∀ urls, scrapeAllPages scrape urls now = urls.map (scrapeEntry scrape now)
  | [] => rfl
  | [_] => rfl
  | [_, _] => rfl
  | _ :: _ :: _ :: rest => by
    simp only [scrapeAllPages, List.map_cons]
    rw [scrapeAllPages_eq_map scrape now rest]

/-- The HTTP path keeps exactly the URLs whose response was not an HTTP
error, in order. -/
theorem tryFetchPages_map_url (fetch : String → FetchOutcome) (now : ℤ) :
    ∀ urls, (tryFetchPages fetch urls now).map PageData.url =
      urls.filter fun x => !(fetch x).isHttpErr
  | [] => rfl
  | url :: rest => by
    have ih := tryFetchPages_map_url fetch now rest
    cases hf : fetch url <;>
      simp [tryFetchPages, hf, FetchOutcome.isHttpErr, List.filter_cons, ih]

/-- Pages of the HTTP path with a populated error field are the absorbed
thrown fetches: empty content. -/
theorem tryFetchPages_error_pages (fetch : String → FetchOutcome) (now : ℤ) :
    ∀ urls, ((tryFetchPages fetch urls now).all
      fun pd => pd.error.isNone || (decide (pd.html = "") && decide (pd.text = "")
        && decide (pd.title = "Error"))) = true
  | [] => rfl
  | url :: rest => by
    have ih := tryFetchPages_error_pages fetch now rest
    cases hf : fetch url <;> simp [tryFetchPages, hf, ih]

end UniversalScraper

/-- C6 counterexample: a URL whose plain fetch returns a non-OK HTTP status
is skipped (`continue`), so `tryFetchPages` yields zero snapshots for one
configured URL — not "exactly one PageSnapshot per configured URL". -/
theorem tryFetchPages_skips_http_error :
    UniversalScraper.tryFetchPages (fun _ => UniversalScraper.FetchOutcome.httpError 403)
      ["https://vercel.com/pricing"] 0 = [] := rfl

/-- C6 amended: the browser path (`scrapeAllPages`) does produce exactly one
`PageData` per configured URL, in order, absorbing a page failure into an
inline snapshot with empty content and a populated error field; the HTTP
path (`tryFetchPages`) also never raises and absorbs thrown fetches inline,
but silently skips URLs whose response has a non-OK HTTP status, so it can
return fewer snapshots than URLs. -/
theorem acquirer_per_url_behavior
    (scrape : String → Except String UniversalScraper.RenderedPage)
    (fetch : String → UniversalScraper.FetchOutcome)
    (urls : List String) (now : ℤ) (u m : String)
    (hu : u ∈ urls) (hscrape : scrape u = Except.error m) :
    ((UniversalScraper.scrapeAllPages scrape urls now).map PageData.url = urls) ∧
    (UniversalScraper.errorPage u m now ∈ UniversalScraper.scrapeAllPages scrape urls now) ∧
    ((UniversalScraper.errorPage u m now).html = "" ∧
      (UniversalScraper.errorPage u m now).text = "" ∧
      (UniversalScraper.errorPage u m now).error = some m) ∧
    ((UniversalScraper.tryFetchPages fetch urls now).map PageData.url =
      urls.filter fun x => !(fetch x).isHttpErr) ∧
    ((UniversalScraper.tryFetchPages fetch urls now).all
      fun pd => pd.error.isNone || (decide (pd.html = "") && decide (pd.text = "")
        && decide (pd.title = "Error"))) = true := by
  refine ⟨?_, ?_, ⟨rfl, rfl, rfl⟩, UniversalScraper.tryFetchPages_map_url fetch now urls,
    UniversalScraper.tryFetchPages_error_pages fetch now urls⟩
  · rw [UniversalScraper.scrapeAllPages_eq_map, List.map_map]
    have h1 : ∀ x ∈ urls, (PageData.url ∘ UniversalScraper.scrapeEntry scrape now) x = id x := by
      intro x _
      cases hs : scrape x <;>
        simp [UniversalScraper.scrapeEntry, UniversalScraper.errorPage, hs]
    rw [List.map_congr_left h1, List.map_id]
  · rw [UniversalScraper.scrapeAllPages_eq_map]
    have : UniversalScraper.errorPage u m now = UniversalScraper.scrapeEntry scrape now u := by
      simp [UniversalScraper.scrapeEntry, hscrape]
    rw [this]
    exact List.mem_map_of_mem _ hu


theorem acquirer_per_url_behavior_witness :
    ((UniversalScraper.scrapeAllPages scrapeOracleW
        ["https://a.example/pricing", "https://b.example/pricing"] 0).map PageData.url =
      ["https://a.example/pricing", "https://b.example/pricing"]) ∧
    (UniversalScraper.errorPage "https://b.example/pricing" "net timeout" 0 ∈
      UniversalScraper.scrapeAllPages scrapeOracleW
        ["https://a.example/pricing", "https://b.example/pricing"] 0) ∧
    ((UniversalScraper.errorPage "https://b.example/pricing" "net timeout" 0).html = "" ∧
      (UniversalScraper.errorPage "https://b.example/pricing" "net timeout" 0).text = "" ∧
      (UniversalScraper.errorPage "https://b.example/pricing" "net timeout" 0).error = some "net timeout") ∧
    ((UniversalScraper.tryFetchPages fetchOracleW
        ["https://a.example/pricing", "https://b.example/pricing"] 0).map PageData.url =
      ["https://a.example/pricing", "https://b.example/pricing"].filter
        fun x => !(fetchOracleW x).isHttpErr) ∧
    ((UniversalScraper.tryFetchPages fetchOracleW
        ["https://a.example/pricing", "https://b.example/pricing"] 0).all
      fun pd => pd.error.isNone || (decide (pd.html = "") && decide (pd.text = "")
        && decide (pd.title = "Error"))) = true :=
  acquirer_per_url_behavior scrapeOracleW fetchOracleW
    ["https://a.example/pricing", "https://b.example/pricing"] 0
    "https://b.example/pricing" "net timeout" (by decide) rfl
